import Mathlib

/-!
Shallow embedding of the chatcraft-ai real-time layer and its collaborators.

Sources embedded:
* src/server/src/sockets/events.ts   (handleSocketEvents: room:join, room:leave,
  message:send, typing:start, typing:stop handlers)
* src/server/src/sockets/index.ts    (authenticateSocket, setupSocketIO)
* src/unnamed/part_003               (MessagesService.createMessage, isUserParticipant)
* src/server/src/domain/crypto/crypto.service.ts (CryptoService.encrypt / decrypt,
  AES-256-CBC with PKCS#7 padding; the AES block permutation itself is the external
  Node crypto collaborator and is abstracted as a block-cipher parameter)

Socket.IO room semantics (socket.join, socket.leave, io.to(room).emit,
socket.to(room).emit, socket.emit, and removal of a disconnected socket from all
of its rooms) are part of the transport library the source builds on; they are
modelled here by explicit state passing over a membership list.
-/

namespace ChatCraft

/-- A connected transport connection (a Socket.IO socket) is identified by a number. -/
abbrev SessionId := Nat

/-- Rooms are keyed by opaque strings (the source uses the string key
directly when calling socket.join / io.to). -/
abbrev RoomId := String

/-- The MessageDTO interface from src/server/src/sockets/events.ts. -/
structure MessageDTO where
  id : String
  conversationId : String
  senderId : String
  type : String
  content : String
  createdAt : String
deriving DecidableEq, Repr

/-- Server-to-client events emitted by the handlers in events.ts. -/
inductive ServerEvent where
  | messageNew (msg : MessageDTO)
  | typingUpdate (userId : String) (isTyping : Bool) (conversationId : String)
  | errorEvent (code : String) (message : String)
deriving DecidableEq, Repr

/-- The room-membership state of the Socket.IO server: the list of
(room, socket) membership pairs.  A wellformed state has no duplicate pairs
(Socket.IO keys each room by a set of socket ids). -/
structure SocketState where
  rooms : List (RoomId × SessionId)
deriving DecidableEq, Repr

/-- The members of room r: Socket.IO delivers io.to(r) to exactly these sockets. -/
def roomMembers (st : SocketState) (r : RoomId) : List SessionId :=
  (st.rooms.filter (fun p => decide (p.1 = r))).map Prod.snd

/-- Whether socket s is currently in room r. -/
def inRoom (st : SocketState) (r : RoomId) (s : SessionId) : Bool :=
  decide ((r, s) ∈ st.rooms)

/-- socket.join(r): Socket.IO adds the socket to the room set; joining a room
the socket is already in is a no-op. -/
def socketJoin (st : SocketState) (s : SessionId) (r : RoomId) : SocketState :=
  if (r, s) ∈ st.rooms then st else { rooms := (r, s) :: st.rooms }

/-- socket.leave(r): Socket.IO removes the socket from the room set; leaving a
room the socket is not in is a no-op. -/
def socketLeave (st : SocketState) (s : SessionId) (r : RoomId) : SocketState :=
  { rooms := st.rooms.filter (fun p => decide (p ≠ (r, s))) }

/-- A batch of deliveries: which socket receives which event. -/
abbrev Delivery := List (SessionId × ServerEvent)

/-- io.to(r).emit(e): deliver e to every socket currently in room r. -/
def emitToRoom (st : SocketState) (r : RoomId) (e : ServerEvent) : Delivery :=
  (roomMembers st r).map (fun t => (t, e))

/-- socket.to(r).emit(e): deliver e to every socket currently in room r except
the emitting socket s itself. -/
def emitToRoomExcept (st : SocketState) (s : SessionId) (r : RoomId) (e : ServerEvent) :
    Delivery :=
  ((roomMembers st r).filter (fun t => decide (t ≠ s))).map (fun t => (t, e))

/-- socket.emit(e): deliver e to this one socket only. -/
def emitToSocket (s : SessionId) (e : ServerEvent) : Delivery := [(s, e)]

/-- events.ts keys the room for a conversation as the string
"conversation:" followed by the conversation id. -/
def roomKey (conversationId : String) : RoomId :=
  "conversation:" ++ conversationId

/-- Result of running one inbound-event handler: the new room state and the
deliveries it emitted. -/
structure HandlerOutput where
  state : SocketState
  emits : Delivery
deriving DecidableEq, Repr

/-- The room:join handler of events.ts: socket.join on the conversation room,
no event emitted (the console.log is ignored). -/
def handleRoomJoin (st : SocketState) (s : SessionId) (conversationId : String) :
    HandlerOutput :=
  { state := socketJoin st s (roomKey conversationId), emits := [] }

/-- The room:leave handler of events.ts: socket.leave on the conversation room,
no event emitted. -/
def handleRoomLeave (st : SocketState) (s : SessionId) (conversationId : String) :
    HandlerOutput :=
  { state := socketLeave st s (roomKey conversationId), emits := [] }

/-- The mock MessageDTO the message:send handler of events.ts constructs
(the persistence call is commented out in the source; the id is the literal
string temp-id and createdAt is the current time). -/
def mockMessage (conversationId userId content createdAt : String) : MessageDTO :=
  { id := "temp-id", conversationId := conversationId, senderId := userId,
    type := "text", content := content, createdAt := createdAt }

/-- The message:send handler of events.ts.  The source wraps its body in
try/catch; the parameter thrown models whether the body raised before the
broadcast completed.  On the normal path it broadcasts the mock message to the
conversation room via io.to(room).emit; on the catch path it emits a single
error event with code MESSAGE_SEND_ERROR to the sending socket only. -/
def handleMessageSend (st : SocketState) (s : SessionId)
    (userId conversationId content createdAt : String) (thrown : Bool) :
    HandlerOutput :=
  if thrown then
    { state := st,
      emits := emitToSocket s
        (.errorEvent "MESSAGE_SEND_ERROR" "Failed to send message") }
  else
    { state := st,
      emits := emitToRoom st (roomKey conversationId)
        (.messageNew (mockMessage conversationId userId content createdAt)) }

/-- The typing:start handler of events.ts: socket.to(room).emit of a
typing:update with isTyping true — delivered to the other room members, never
to the emitting socket. -/
def handleTypingStart (st : SocketState) (s : SessionId)
    (userId conversationId : String) : HandlerOutput :=
  { state := st,
    emits := emitToRoomExcept st s (roomKey conversationId)
      (.typingUpdate userId true conversationId) }

/-- The typing:stop handler of events.ts: like typing:start with isTyping false. -/
def handleTypingStop (st : SocketState) (s : SessionId)
    (userId conversationId : String) : HandlerOutput :=
  { state := st,
    emits := emitToRoomExcept st s (roomKey conversationId)
      (.typingUpdate userId false conversationId) }

/-- The named client-to-server events of the protocol. -/
inductive ClientEvent where
  | roomJoin (conversationId : String)
  | roomLeave (conversationId : String)
  | messageSend (conversationId : String) (content : String)
  | typingStart (conversationId : String)
  | typingStop (conversationId : String)
deriving DecidableEq, Repr

/-- handleSocketEvents of events.ts viewed as one dispatch function: route an
inbound event from socket s (whose authenticated identity id is userId) to its
handler. -/
def dispatch (st : SocketState) (s : SessionId) (userId createdAt : String)
    (thrown : Bool) : ClientEvent → HandlerOutput
  | .roomJoin cid => handleRoomJoin st s cid
  | .roomLeave cid => handleRoomLeave st s cid
  | .messageSend cid content => handleMessageSend st s userId cid content createdAt thrown
  | .typingStart cid => handleTypingStart st s userId cid
  | .typingStop cid => handleTypingStop st s userId cid

/-- Socket.IO disconnect semantics: a disconnected socket is removed from every
room it had joined (the source disconnect handler itself only logs; the room
cleanup is the transport library behaviour the Gateway relies on). -/
def handleDisconnect (st : SocketState) (s : SessionId) : SocketState :=
  { rooms := st.rooms.filter (fun p => decide (p.2 ≠ s)) }

/-- The JwtPayload identity attached to a socket by authenticateSocket
(src/server/src/sockets/index.ts, via verifyJwtToken). -/
structure Identity where
  id : String
  email : String
deriving DecidableEq, Repr

/-- Token extraction in authenticateSocket: socket.handshake.auth token, or
else the handshake query token; a JavaScript falsy (absent or empty) value
falls through, and a still-falsy result means no token was provided. -/
def tokenFromHandshake (authToken queryToken : Option String) : Option String :=
  match authToken with
  | some t => if t = "" then (match queryToken with
      | some u => if u = "" then none else some u
      | none => none)
    else some t
  | none => match queryToken with
    | some u => if u = "" then none else some u
    | none => none

/-- authenticateSocket of src/server/src/sockets/index.ts: reject with an
authentication error when no token is provided or when the credential verifier
rejects it; on success return the decoded identity that is attached to
socket.data.user.  The verifier (verifyJwtToken) is the external credential
collaborator, passed as a function. -/
def authenticateSocket (verify : String → Option Identity)
    (authToken queryToken : Option String) : Except String Identity :=
  match tokenFromHandshake authToken queryToken with
  | none => .error "Authentication error: Token not provided"
  | some t =>
    match verify t with
    | none => .error "Authentication error: Invalid token"
    | some ident => .ok ident

/-- Process a stream of inbound events through dispatch, threading the room
state and collecting all deliveries (FIFO per connection). -/
def processEvents (s : SessionId) (userId createdAt : String) (thrown : Bool) :
    SocketState → List ClientEvent → SocketState × Delivery
  | st, [] => (st, [])
  | st, ev :: rest =>
    let out := dispatch st s userId createdAt thrown ev
    let next := processEvents s userId createdAt thrown out.state rest
    (next.1, out.emits ++ next.2)

/-- The observable outcome of one connection attempt in setupSocketIO. -/
structure ConnectionOutcome where
  userData : Option Identity
  closedWithAuthError : Bool
  finalState : SocketState
  outputs : Delivery
deriving Repr

/-- setupSocketIO of src/server/src/sockets/index.ts: the authentication
middleware runs first; if it errors, Socket.IO closes the connection with that
error, no user data is attached and no connection handler ever runs, so no
inbound event is processed.  Only on success does the connection handler
install handleSocketEvents and process the inbound stream. -/
def processConnection (verify : String → Option Identity)
    (authToken queryToken : Option String) (st : SocketState) (s : SessionId)
    (createdAt : String) (thrown : Bool) (inbound : List ClientEvent) :
    ConnectionOutcome :=
  match authenticateSocket verify authToken queryToken with
  | .error _ =>
    { userData := none, closedWithAuthError := true, finalState := st, outputs := [] }
  | .ok ident =>
    let run := processEvents s ident.id createdAt thrown st inbound
    { userData := some ident, closedWithAuthError := false,
      finalState := run.1, outputs := run.2 }

/-!
The REST persistence collaborator: MessagesService of src/unnamed/part_003
(messages.service.ts).  The Prisma store is modelled as an explicit value:
conversation-participant records and the persisted message rows.
-/

/-- A persisted message row (the Prisma Message model): content is stored
encrypted as a ciphertext/nonce byte pair. -/
structure StoredMessage where
  id : String
  conversationId : String
  senderId : String
  type : String
  ciphertext : List Nat
  nonce : List Nat
  createdAt : String
deriving DecidableEq, Repr

/-- The persistence-layer store: ConversationParticipant records as
(conversationId, userId) pairs, plus the message table. -/
structure Store where
  participants : List (String × String)
  messages : List StoredMessage
deriving DecidableEq, Repr

/-- MessagesService.isUserParticipant: a findFirst on ConversationParticipant
with this conversationId and userId, truthy iff a record exists. -/
def isUserParticipant (store : Store) (conversationId userId : String) : Bool :=
  decide ((conversationId, userId) ∈ store.participants)

/-- The error object MessagesService throws: an Error with message, statusCode
and code fields attached. -/
structure SvcError where
  message : String
  statusCode : Nat
  code : String
deriving DecidableEq, Repr

/-- The DTO createMessage returns on success (sender sub-object elided to the
sender id the handlers use). -/
structure CreatedMessage where
  id : String
  conversationId : String
  senderId : String
  type : String
  content : String
  createdAt : String
deriving DecidableEq, Repr

/-- MessagesService.createMessage of src/unnamed/part_003: first check that
the sender is a participant of the conversation and throw NOT_PARTICIPANT
(status 403) if not; only then encrypt the content (encryptFn stands for
cryptoService.encrypt, including its choice of random nonce) and insert the
message row; the returned DTO carries the original content.  newId and
createdAt stand for the database-generated id and timestamp. -/
def createMessage (encryptFn : String → List Nat × List Nat)
    (newId createdAt : String) (store : Store)
    (conversationId userId content : String) :
    Except SvcError (CreatedMessage × Store) :=
  if isUserParticipant store conversationId userId then
    let enc := encryptFn content
    let row : StoredMessage :=
      { id := newId, conversationId := conversationId, senderId := userId,
        type := "text", ciphertext := enc.1, nonce := enc.2, createdAt := createdAt }
    .ok ({ id := newId, conversationId := conversationId, senderId := userId,
           type := "text", content := content, createdAt := createdAt },
         { store with messages := store.messages ++ [row] })
  else
    .error { message := "You are not a participant in this conversation",
             statusCode := 403, code := "NOT_PARTICIPANT" }

/-- The store the caller observes after a createMessage call: the new store on
success, the old store when the call threw (the throw happens before any
write). -/
def storeAfter (store : Store) (r : Except SvcError (CreatedMessage × Store)) : Store :=
  match r with
  | .ok p => p.2
  | .error _ => store

/-!
CryptoService of src/server/src/domain/crypto/crypto.service.ts: AES-256-CBC
over Node crypto.  createCipheriv/createDecipheriv with update plus final
implement CBC mode with PKCS#7 padding over the AES block permutation; the
block permutation itself belongs to the external crypto collaborator and is
abstracted as an enc/dec function pair on 16-byte blocks.  Plaintext strings
are represented by their utf8 byte sequences. -/

/-- AES block size in bytes (also the CBC IV length the service validates). -/
def blockSize : Nat := 16

/-- Bytewise xor of two equal-length byte blocks. -/
def xorBytes (a b : List Nat) : List Nat :=
  List.zipWith (fun x y => x ^^^ y) a b

/-- PKCS#7 padding as applied by cipher.final: append r copies of the byte r,
where r is 16 minus the message length mod 16 (r is between 1 and 16). -/
def pad (m : List Nat) : List Nat :=
  m ++ List.replicate (blockSize - m.length % blockSize) (blockSize - m.length % blockSize)

/-- PKCS#7 unpadding as checked by decipher.final: the last byte k must be
between 1 and 16, at most the length, and the last k bytes must all equal k;
otherwise decryption fails (Node throws, the service catches). -/
def unpad (m : List Nat) : Option (List Nat) :=
  match m.getLast? with
  | none => none
  | some k =>
    if k = 0 ∨ blockSize < k ∨ m.length < k then none
    else if (m.drop (m.length - k)).all (fun b => decide (b = k)) then
      some (m.take (m.length - k))
    else none

/-- Split a byte sequence into consecutive 16-byte blocks. -/
def toBlocks (m : List Nat) : List (List Nat) :=
  if h : m = [] then [] else
    m.take blockSize :: toBlocks (m.drop blockSize)
termination_by m.length
decreasing_by
  simp only [List.length_drop, blockSize]
  have hm : 0 < m.length := List.length_pos.mpr h
  omega

/-- CBC encryption over a block list: each block is xored with the previous
ciphertext block (the IV for the first) and passed through the block cipher. -/
def cbcEncBlocks (enc : List Nat → List Nat) (prev : List Nat) :
    List (List Nat) → List (List Nat)
  | [] => []
  | b :: bs =>
    enc (xorBytes b prev) :: cbcEncBlocks enc (enc (xorBytes b prev)) bs

/-- CBC decryption over a block list: each ciphertext block is deciphered and
xored with the previous ciphertext block (the IV for the first). -/
def cbcDecBlocks (dec : List Nat → List Nat) (prev : List Nat) :
    List (List Nat) → List (List Nat)
  | [] => []
  | c :: cs => xorBytes (dec c) prev :: cbcDecBlocks dec c cs

/-- The ciphertext/nonce pair CryptoService.encrypt returns. -/
structure EncActual where
  ciphertext : List Nat
  nonce : List Nat
deriving DecidableEq, Repr

/-- CryptoService.encrypt: generate a 16-byte random IV (passed here as the
nonce argument, randomness being an input of the model), run AES-256-CBC with
PKCS#7 padding over the utf8 plaintext bytes, and return the ciphertext
together with the IV. -/
def serviceEncrypt (enc : List Nat → List Nat) (nonce plaintext : List Nat) :
    EncActual :=
  { ciphertext := (cbcEncBlocks enc nonce (toBlocks (pad plaintext))).flatten,
    nonce := nonce }

/-- The utf8 bytes of the sentinel string the service returns when decryption
fails: the 19 ascii codes of the text Decryption failed in square brackets. -/
def sentinelBytes : List Nat :=
  [91, 68, 101, 99, 114, 121, 112, 116, 105, 111, 110, 32,
   102, 97, 105, 108, 101, 100, 93]

/-- CryptoService.decrypt: every failure path inside the try block — empty
ciphertext, an IV whose length is not 16, a ciphertext that is not a whole
number of blocks (decipher.final throws on a wrong final block length), or
invalid PKCS#7 padding — is caught and mapped to the sentinel string; the
valid path returns the unpadded CBC decryption.  The function is total. -/
def serviceDecrypt (dec : List Nat → List Nat) (ciphertext nonce : List Nat) :
    List Nat :=
  if ciphertext.length = 0 then sentinelBytes
  else if nonce.length ≠ blockSize then sentinelBytes
  else if ciphertext.length % blockSize ≠ 0 then sentinelBytes
  else
    match unpad ((cbcDecBlocks dec nonce (toBlocks ciphertext)).flatten) with
    | none => sentinelBytes
    | some m => m

/-- The room-state-changing actions of the gateway: the two membership
handlers plus transport disconnect. -/
inductive Action where
  | join (s : SessionId) (conversationId : String)
  | leave (s : SessionId) (conversationId : String)
  | disconnect (s : SessionId)

/-- Apply one action to the room state. -/
def applyAction (st : SocketState) : Action → SocketState
  | .join s cid => (handleRoomJoin st s cid).state
  | .leave s cid => (handleRoomLeave st s cid).state
  | .disconnect s => handleDisconnect st s

/-- The set of disconnected sessions after an action. -/
def deadAfter (dead : List SessionId) : Action → List SessionId
  | .disconnect s => s :: dead
  | _ => dead

/-- A join or leave event can only come from a session whose transport is
still open: a disconnected socket emits no further events. -/
def actorAlive (dead : List SessionId) : Action → Prop
  | .join s _ => s ∉ dead
  | .leave s _ => s ∉ dead
  | .disconnect _ => True

/-- The invariant of the spec: no room membership pair names a disconnected
session. -/
def deadFreeState (st : SocketState) (dead : List SessionId) : Prop :=
  ∀ p ∈ st.rooms, p.2 ∉ dead

/-- Whether a server event is an error event. -/
def ServerEvent.isErrorEvent : ServerEvent → Bool
  | .errorEvent _ _ => true
  | _ => false

/-- The number of copies of one delivery (socket, event) in a delivery batch. -/
def countOcc (d : SessionId × ServerEvent) (l : Delivery) : Nat :=
  (l.filter (fun x => decide (x = d))).length

/-- The deliveries of a batch addressed to one socket. -/
def deliveriesTo (t : SessionId) (l : Delivery) : Delivery :=
  l.filter (fun x => decide (x.1 = t))

/-! Helper lemmas shared by the claim theorems. -/

/-- socket.join is a no-op when the socket is already in the room. -/
theorem socketJoin_of_mem (st : SocketState) (s : SessionId) (r : RoomId)
    (h : (r, s) ∈ st.rooms) : socketJoin st s r = st := by
  simp [socketJoin, h]

/-- socket.leave is a no-op when the socket is not in the room. -/
theorem socketLeave_of_not_mem (st : SocketState) (s : SessionId) (r : RoomId)
    (h : (r, s) ∉ st.rooms) : socketLeave st s r = st := by
  unfold socketLeave
  cases st with
  | mk rooms =>
    simp only [SocketState.mk.injEq]
    refine List.filter_eq_self.mpr ?_
    intro p hp
    simp only [decide_eq_true_eq]
    intro heq
    exact h (heq ▸ hp)

/-- C3: processing room:join for a session already in the conversation room
leaves the membership state unchanged and emits nothing, and processing
room:leave for a session not in the room is a no-op that emits nothing. -/
theorem room_ops_idempotent (st : SocketState) (s : SessionId) (cid : String) :
    (inRoom st (roomKey cid) s = true →
      handleRoomJoin st s cid = { state := st, emits := [] }) ∧
    (inRoom st (roomKey cid) s = false →
      handleRoomLeave st s cid = { state := st, emits := [] }) := by
  constructor
  · intro h
    have hm : (roomKey cid, s) ∈ st.rooms := by simpa [inRoom] using h
    simp [handleRoomJoin, socketJoin_of_mem st s _ hm]
  · intro h
    have hm : (roomKey cid, s) ∉ st.rooms := by simpa [inRoom] using h
    simp [handleRoomLeave, socketLeave_of_not_mem st s _ hm]

/-- Witness for C3 at a concrete state: joining an already-joined room and
leaving a never-joined room both leave the state untouched. -/
theorem room_ops_idempotent_witness :
    handleRoomJoin { rooms := [("conversation:c1", 1)] } 1 "c1" =
      { state := { rooms := [("conversation:c1", 1)] }, emits := [] } ∧
    handleRoomLeave { rooms := [("conversation:c1", 1)] } 2 "c1" =
      { state := { rooms := [("conversation:c1", 1)] }, emits := [] } :=
  ⟨(room_ops_idempotent { rooms := [("conversation:c1", 1)] } 1 "c1").1 (by decide),
   (room_ops_idempotent { rooms := [("conversation:c1", 1)] } 2 "c1").2 (by decide)⟩

/-- C6: after disconnect handling, the session is in the membership set of no
room; disconnect handling is idempotent; and every gateway action (join or
leave by a live session, or a disconnect) preserves the invariant that no
room membership pair names a disconnected session. -/
theorem disconnect_cleanup (st : SocketState) (dead : List SessionId)
    (s : SessionId) (a : Action) :
    (∀ r, s ∉ roomMembers (handleDisconnect st s) r) ∧
    handleDisconnect (handleDisconnect st s) s = handleDisconnect st s ∧
    (deadFreeState st dead → actorAlive dead a →
      deadFreeState (applyAction st a) (deadAfter dead a)) := by
  refine ⟨?_, ?_, ?_⟩
  · intro r hmem
    simp only [roomMembers, handleDisconnect, List.mem_map, List.mem_filter,
      decide_eq_true_eq] at hmem
    obtain ⟨p, ⟨⟨_, hne⟩, _⟩, hsnd⟩ := hmem
    exact hne hsnd
  · simp [handleDisconnect, List.filter_filter]
  · intro hinv hact
    cases a with
    | join s0 cid =>
      intro p hp
      simp only [applyAction, handleRoomJoin, socketJoin] at hp
      by_cases hmem : (roomKey cid, s0) ∈ st.rooms
      · rw [if_pos hmem] at hp
        exact hinv p hp
      · rw [if_neg hmem] at hp
        simp only [List.mem_cons] at hp
        rcases hp with hp | hp
        · subst hp
          exact hact
        · exact hinv p hp
    | leave s0 cid =>
      intro p hp
      simp only [applyAction, handleRoomLeave, socketLeave, List.mem_filter] at hp
      exact hinv p hp.1
    | disconnect s0 =>
      intro p hp
      simp only [applyAction, handleDisconnect, List.mem_filter,
        decide_eq_true_eq] at hp
      simp only [deadAfter, List.mem_cons, not_or]
      exact ⟨hp.2, hinv p hp.1⟩

/-- Witness for C6 at a concrete state: session 1 had joined two rooms; after
its disconnect it is in neither, the cleanup is idempotent, and the dead-free
invariant holds of the resulting state. -/
theorem disconnect_cleanup_witness :
    1 ∉ roomMembers
      (handleDisconnect
        { rooms := [("conversation:c1", 1), ("conversation:c2", 1), ("conversation:c1", 2)] } 1)
      "conversation:c1" ∧
    handleDisconnect
        (handleDisconnect
          { rooms := [("conversation:c1", 1), ("conversation:c2", 1), ("conversation:c1", 2)] } 1) 1 =
      handleDisconnect
        { rooms := [("conversation:c1", 1), ("conversation:c2", 1), ("conversation:c1", 2)] } 1 ∧
    deadFreeState
      (applyAction
        { rooms := [("conversation:c1", 1), ("conversation:c2", 1), ("conversation:c1", 2)] }
        (Action.disconnect 1))
      (deadAfter [] (Action.disconnect 1)) := by
  have h := disconnect_cleanup
    { rooms := [("conversation:c1", 1), ("conversation:c2", 1), ("conversation:c1", 2)] }
    [] 1 (Action.disconnect 1)
  exact ⟨h.1 "conversation:c1", h.2.1, h.2.2 (by intro p hp; simp) trivial⟩

/-- C7: every error event a handler emits is addressed to the acting socket
alone, never broadcast; and the rejected message:send (the catch path)
produces exactly one error event, back to the sender. -/
theorem errors_only_to_actor (st : SocketState) (s : SessionId)
    (uid createdAt : String) (thrown : Bool) (ev : ClientEvent)
    (cid content : String) :
    (∀ t c m, (t, ServerEvent.errorEvent c m) ∈
        (dispatch st s uid createdAt thrown ev).emits → t = s) ∧
    (dispatch st s uid createdAt true (.messageSend cid content)).emits =
      [(s, ServerEvent.errorEvent "MESSAGE_SEND_ERROR" "Failed to send message")] := by
  constructor
  · intro t c m hmem
    cases ev with
    | roomJoin cid2 => simp [dispatch, handleRoomJoin] at hmem
    | roomLeave cid2 => simp [dispatch, handleRoomLeave] at hmem
    | messageSend cid2 content2 =>
      cases thrown with
      | true =>
        simp only [dispatch, handleMessageSend, if_pos, emitToSocket,
          List.mem_singleton, Prod.mk.injEq] at hmem
        exact hmem.1
      | false =>
        simp [dispatch, handleMessageSend, emitToRoom] at hmem
    | typingStart cid2 =>
      simp [dispatch, handleTypingStart, emitToRoomExcept] at hmem
    | typingStop cid2 =>
      simp [dispatch, handleTypingStop, emitToRoomExcept] at hmem
  · rfl

/-- Witness for C7 at a concrete input: a failed message:send from socket 1
yields exactly one error event, delivered to socket 1. -/
theorem errors_only_to_actor_witness :
    (dispatch { rooms := [] } 1 "alice" "t0" true (.messageSend "c1" "hi")).emits =
      [(1, ServerEvent.errorEvent "MESSAGE_SEND_ERROR" "Failed to send message")] :=
  (errors_only_to_actor { rooms := [] } 1 "alice" "t0" true
    (.messageSend "c1" "hi") "c1" "hi").2

/-- C2: when the handshake carries no token or the credential verifier rejects
the provided token, the connection is closed with an authentication error, no
identity is attached, the room state is untouched and no inbound event is
processed (the event handlers are only installed after successful
authentication). -/
theorem reject_before_session (verify : String → Option Identity)
    (authToken queryToken : Option String) (st : SocketState) (s : SessionId)
    (createdAt : String) (thrown : Bool) (inbound : List ClientEvent)
    (hfail : ∀ t, tokenFromHandshake authToken queryToken = some t →
      verify t = none) :
    processConnection verify authToken queryToken st s createdAt thrown inbound =
      { userData := none, closedWithAuthError := true, finalState := st,
        outputs := [] } := by
  unfold processConnection authenticateSocket
  cases htok : tokenFromHandshake authToken queryToken with
  | none => rfl
  | some t => simp [hfail t htok]

/-- Witness for C2 at a concrete input: a verifier that rejects every token
makes the connection close with an auth error, with no session data, no state
change and no processed events. -/
theorem reject_before_session_witness :
    processConnection (fun _ => none) (some "tok") none { rooms := [] } 1 "t0"
        false [.roomJoin "c1", .messageSend "c1" "hi"] =
      { userData := none, closedWithAuthError := true,
        finalState := { rooms := [] }, outputs := [] } :=
  reject_before_session (fun _ => none) (some "tok") none { rooms := [] } 1
    "t0" false [.roomJoin "c1", .messageSend "c1" "hi"] (fun _ _ => rfl)

/-- C8: createMessage called with a sender who is not a participant of the
conversation fails with the NOT_PARTICIPANT error (status 403), leaves the
message store unchanged, and its result does not depend on the encryption
function — the participant check precedes any encryption or write. -/
theorem createMessage_rejects_nonparticipant (store : Store)
    (cid uid content newId createdAt : String)
    (enc enc2 : String → List Nat × List Nat)
    (h : isUserParticipant store cid uid = false) :
    createMessage enc newId createdAt store cid uid content =
      .error { message := "You are not a participant in this conversation",
               statusCode := 403, code := "NOT_PARTICIPANT" } ∧
    storeAfter store (createMessage enc newId createdAt store cid uid content) =
      store ∧
    createMessage enc newId createdAt store cid uid content =
      createMessage enc2 newId createdAt store cid uid content := by
  refine ⟨?_, ?_, ?_⟩ <;> simp [createMessage, h, storeAfter]

/-- Witness for C8 at a concrete store: alice is not a participant of c1, so
her createMessage call fails with NOT_PARTICIPANT, persists nothing, and never
consults the encryption function. -/
theorem createMessage_rejects_nonparticipant_witness :
    createMessage (fun _ => ([1], [2])) "m1" "t0"
        { participants := [("c1", "bob")], messages := [] } "c1" "alice" "hi" =
      .error { message := "You are not a participant in this conversation",
               statusCode := 403, code := "NOT_PARTICIPANT" } ∧
    storeAfter { participants := [("c1", "bob")], messages := [] }
        (createMessage (fun _ => ([1], [2])) "m1" "t0"
          { participants := [("c1", "bob")], messages := [] } "c1" "alice" "hi") =
      { participants := [("c1", "bob")], messages := [] } ∧
    createMessage (fun _ => ([1], [2])) "m1" "t0"
        { participants := [("c1", "bob")], messages := [] } "c1" "alice" "hi" =
      createMessage (fun _ => ([3], [4])) "m1" "t0"
        { participants := [("c1", "bob")], messages := [] } "c1" "alice" "hi" :=
  createMessage_rejects_nonparticipant
    { participants := [("c1", "bob")], messages := [] } "c1" "alice" "hi" "m1"
    "t0" (fun _ => ([1], [2])) (fun _ => ([3], [4])) (by decide)

/-- In a wellformed state (no duplicate membership pairs, as Socket.IO keeps a
set per room) the member list of any room has no duplicates. -/
theorem roomMembers_nodup (st : SocketState) (hnd : st.rooms.Nodup)
    (r : RoomId) : (roomMembers st r).Nodup := by
  unfold roomMembers
  refine List.Nodup.map_on ?_ (hnd.filter _)
  intro p hp q hq hpq
  have hp1 : p.1 = r := by
    have := List.of_mem_filter hp
    simpa using this
  have hq1 : q.1 = r := by
    have := List.of_mem_filter hq
    simpa using this
  exact Prod.ext (hp1.trans hq1.symm) hpq

/-- Counting one (socket, event) pair in the image of pairing a session list
with a fixed event reduces to counting the session. -/
theorem countOcc_map_pair (e : ServerEvent) (t : SessionId) (l : List SessionId) :
    countOcc (t, e) (l.map (fun x => (x, e))) =
      (l.filter (fun x => decide (x = t))).length := by
  induction l with
  | nil => rfl
  | cons a l ih =>
    by_cases h : a = t
    · subst h
      simp only [countOcc, List.map_cons, List.filter_cons] at ih ⊢
      simp [ih]
    · simp only [countOcc, List.map_cons, List.filter_cons] at ih ⊢
      have h1 : (decide ((a, e) = (t, e))) = false := by simp [h]
      have h2 : (decide (a = t)) = false := by simp [h]
      simp [h1, h2, ih]

/-- In a duplicate-free session list, a present session is counted once. -/
theorem filter_length_one_of_nodup (l : List SessionId) (hnd : l.Nodup)
    (t : SessionId) (ht : t ∈ l) :
    (l.filter (fun x => decide (x = t))).length = 1 := by
  induction l with
  | nil => simp at ht
  | cons a l ih =>
    rcases List.nodup_cons.mp hnd with ⟨ha, hl⟩
    by_cases h : a = t
    · subst h
      have hnil : l.filter (fun x => decide (x = a)) = [] := by
        refine List.filter_eq_nil_iff.mpr ?_
        intro x hx
        simp only [decide_eq_true_eq]
        intro hxa
        exact ha (hxa ▸ hx)
      simp [List.filter_cons, hnil]
    · rcases List.mem_cons.mp ht with h1 | h1
      · exact absurd h1.symm h
      · simp [List.filter_cons, h, ih hl h1]

/-- C4: a typing:start from session s in room R delivers exactly one
typing:update (isTyping true) to every other member of R and nothing at all to
s itself; typing:stop behaves the same with isTyping false. -/
theorem typing_excludes_sender (st : SocketState) (s : SessionId)
    (uid cid : String) (hnd : st.rooms.Nodup)
    (hmem : inRoom st (roomKey cid) s = true) :
    (∀ t, t ∈ roomMembers st (roomKey cid) → t ≠ s →
      countOcc (t, ServerEvent.typingUpdate uid true cid)
        (handleTypingStart st s uid cid).emits = 1) ∧
    (∀ d ∈ (handleTypingStart st s uid cid).emits,
      d.2 = ServerEvent.typingUpdate uid true cid) ∧
    (∀ e, (s, e) ∉ (handleTypingStart st s uid cid).emits) ∧
    (∀ t, t ∈ roomMembers st (roomKey cid) → t ≠ s →
      countOcc (t, ServerEvent.typingUpdate uid false cid)
        (handleTypingStop st s uid cid).emits = 1) ∧
    (∀ d ∈ (handleTypingStop st s uid cid).emits,
      d.2 = ServerEvent.typingUpdate uid false cid) ∧
    (∀ e, (s, e) ∉ (handleTypingStop st s uid cid).emits) := by
  have hcount : ∀ (e : ServerEvent) (t : SessionId),
      t ∈ roomMembers st (roomKey cid) → t ≠ s →
      countOcc (t, e) (emitToRoomExcept st s (roomKey cid) e) = 1 := by
    intro e t ht hts
    unfold emitToRoomExcept
    rw [countOcc_map_pair]
    refine filter_length_one_of_nodup _ ((roomMembers_nodup st hnd _).filter _) t ?_
    simp [List.mem_filter, ht, hts]
  have hshape : ∀ (e : ServerEvent) (d : SessionId × ServerEvent),
      d ∈ emitToRoomExcept st s (roomKey cid) e → d.2 = e := by
    intro e d hd
    unfold emitToRoomExcept at hd
    obtain ⟨x, _, hx⟩ := List.mem_map.mp hd
    simpa using (congrArg Prod.snd hx).symm
  have hnotself : ∀ (e : ServerEvent) (e2 : ServerEvent),
      (s, e2) ∉ emitToRoomExcept st s (roomKey cid) e := by
    intro e e2 hd
    unfold emitToRoomExcept at hd
    obtain ⟨x, hx, hxe⟩ := List.mem_map.mp hd
    have hxs : x = s := by simpa using congrArg Prod.fst hxe
    have := (List.mem_filter.mp hx).2
    simp [hxs] at this
  exact ⟨fun t ht hts => hcount _ t ht hts,
         fun d hd => hshape _ d hd,
         fun e => hnotself _ e,
         fun t ht hts => hcount _ t ht hts,
         fun d hd => hshape _ d hd,
         fun e => hnotself _ e⟩

/-- Witness for C4 at a concrete state: sessions 1 and 2 are in room c1;
session 1 starts typing; session 2 receives the typing:update exactly once and
session 1 does not receive its own indicator. -/
theorem typing_excludes_sender_witness :
    countOcc (2, ServerEvent.typingUpdate "alice" true "c1")
      (handleTypingStart
        { rooms := [("conversation:c1", 1), ("conversation:c1", 2)] }
        1 "alice" "c1").emits = 1 ∧
    (1, ServerEvent.typingUpdate "alice" true "c1") ∉
      (handleTypingStart
        { rooms := [("conversation:c1", 1), ("conversation:c1", 2)] }
        1 "alice" "c1").emits := by
  have h := typing_excludes_sender
    { rooms := [("conversation:c1", 1), ("conversation:c1", 2)] }
    1 "alice" "c1" (by decide) (by decide)
  refine ⟨h.1 2 ?_ (by decide), h.2.2.1 (ServerEvent.typingUpdate "alice" true "c1")⟩
  decide

/-- C5: the message:send broadcast goes through io.to(room).emit, and such a
room broadcast delivers exactly one copy of the event to every socket in the
membership set of the room at the instant of the call and nothing to any socket not
in that set (membership being purely the transport-layer room set, independent
of the persistence layer, which the broadcast does not consult). -/
theorem broadcast_exactly_once (st : SocketState) (hnd : st.rooms.Nodup)
    (s : SessionId) (uid cid content createdAt : String) :
    (handleMessageSend st s uid cid content createdAt false).emits =
      emitToRoom st (roomKey cid)
        (.messageNew (mockMessage cid uid content createdAt)) ∧
    (∀ (r : RoomId) (e : ServerEvent) (t : SessionId),
      t ∈ roomMembers st r → countOcc (t, e) (emitToRoom st r e) = 1) ∧
    (∀ (r : RoomId) (e : ServerEvent) (t : SessionId),
      t ∉ roomMembers st r → deliveriesTo t (emitToRoom st r e) = []) := by
  refine ⟨rfl, ?_, ?_⟩
  · intro r e t ht
    unfold emitToRoom
    rw [countOcc_map_pair]
    exact filter_length_one_of_nodup _ (roomMembers_nodup st hnd r) t ht
  · intro r e t ht
    unfold deliveriesTo emitToRoom
    refine List.filter_eq_nil_iff.mpr ?_
    intro d hd
    obtain ⟨x, hx, hxd⟩ := List.mem_map.mp hd
    simp only [decide_eq_true_eq]
    intro hdt
    apply ht
    have : d.1 = x := by simp [← hxd]
    exact (this ▸ hdt) ▸ hx

/-- Witness for C5 at a concrete state: session 1 joined room c1 and session 2
did not; the message:new broadcast for c1 reaches 1 exactly once and 2 not at
all. -/
theorem broadcast_exactly_once_witness :
    countOcc (1, ServerEvent.messageNew (mockMessage "c1" "alice" "hi" "t0"))
      (emitToRoom { rooms := [("conversation:c1", 1)] } "conversation:c1"
        (ServerEvent.messageNew (mockMessage "c1" "alice" "hi" "t0"))) = 1 ∧
    deliveriesTo 2
      (emitToRoom { rooms := [("conversation:c1", 1)] } "conversation:c1"
        (ServerEvent.messageNew (mockMessage "c1" "alice" "hi" "t0"))) = [] := by
  have h := broadcast_exactly_once { rooms := [("conversation:c1", 1)] }
    (by decide) 1 "alice" "c1" "hi" "t0"
  exact ⟨h.2.1 "conversation:c1" _ 1 (by decide), h.2.2 "conversation:c1" _ 2 (by decide)⟩

/-- C1 (divergence of the socket placeholder from the intended design):
alice is not a participant of conversation c1 at the persistence layer, so the
persistence collaborator createMessage rejects her with NOT_PARTICIPANT; yet
the socket message:send handler never invokes it — it broadcasts a mock
message:new (id temp-id) to every socket in the room, alice included, and
sends no error event of any kind to anyone. -/
theorem socket_send_skips_persistence :
    isUserParticipant { participants := [("c1", "bob")], messages := [] }
        "c1" "alice" = false ∧
    createMessage (fun _ => ([], [])) "m1" "t0"
        { participants := [("c1", "bob")], messages := [] } "c1" "alice" "hi" =
      .error { message := "You are not a participant in this conversation",
               statusCode := 403, code := "NOT_PARTICIPANT" } ∧
    (handleMessageSend
        { rooms := [("conversation:c1", 1), ("conversation:c1", 2)] }
        1 "alice" "c1" "hi" "t0" false).emits =
      [(1, ServerEvent.messageNew (mockMessage "c1" "alice" "hi" "t0")),
       (2, ServerEvent.messageNew (mockMessage "c1" "alice" "hi" "t0"))] ∧
    (handleMessageSend
        { rooms := [("conversation:c1", 1), ("conversation:c1", 2)] }
        1 "alice" "c1" "hi" "t0" false).emits.all
      (fun d => ! d.2.isErrorEvent) = true := by
  refine ⟨by decide, rfl, by decide, by decide⟩

/-! Helper lemmas for the CBC embedding. -/

/-- Bytewise xor of equal-length blocks has the same length. -/
theorem xorBytes_length (a b : List Nat) :
    (xorBytes a b).length = min a.length b.length := by
  simp [xorBytes]

/-- Xoring twice with the same block is the identity. -/
theorem xorBytes_cancel (a b : List Nat) (h : a.length = b.length) :
    xorBytes (xorBytes a b) b = a := by
  induction a generalizing b with
  | nil => simp [xorBytes]
  | cons x xs ih =>
    cases b with
    | nil => simp at h
    | cons y ys =>
      have ht := ih ys (by simpa using h)
      simp only [xorBytes, List.zipWith_cons_cons] at ht ⊢
      rw [Nat.xor_cancel_right, ht]

/-- The padded message length is a whole number of blocks. -/
theorem pad_length_mod (m : List Nat) : (pad m).length % blockSize = 0 := by
  simp only [pad, blockSize, List.length_append, List.length_replicate]
  omega

/-- Padding always adds at least one byte, so a padded message is nonempty. -/
theorem pad_pos (m : List Nat) : 0 < (pad m).length := by
  simp only [pad, blockSize, List.length_append, List.length_replicate]
  omega

/-- Unpadding strips a well-formed PKCS#7 tail exactly. -/
theorem unpad_append_replicate (m : List Nat) (r : Nat) (h1 : 1 ≤ r)
    (h2 : r ≤ blockSize) : unpad (m ++ List.replicate r r) = some m := by
  have hlast : (m ++ List.replicate r r).getLast? = some r := by
    obtain ⟨n, rfl⟩ : ∃ n, r = n + 1 := ⟨r - 1, by omega⟩
    rw [List.replicate_succ', ← List.append_assoc]
    exact List.getLast?_concat _
  have hlen : (m ++ List.replicate r r).length = m.length + r := by
    simp
  have hc : ¬(r = 0 ∨ blockSize < r ∨ (m ++ List.replicate r r).length < r) := by
    rw [hlen]
    omega
  have hdrop : (m ++ List.replicate r r).drop
      ((m ++ List.replicate r r).length - r) = List.replicate r r := by
    rw [hlen, Nat.add_sub_cancel]
    exact List.drop_left m _
  have htake : (m ++ List.replicate r r).take
      ((m ++ List.replicate r r).length - r) = m := by
    rw [hlen, Nat.add_sub_cancel]
    exact List.take_left m _
  have hall : ((m ++ List.replicate r r).drop
      ((m ++ List.replicate r r).length - r)).all (fun b => decide (b = r)) = true := by
    rw [hdrop]
    simp [List.all_eq_true, List.mem_replicate]
  unfold unpad
  rw [hlast]
  simp [hc, hall, htake]
  omega

/-- PKCS#7 unpadding inverts padding. -/
theorem unpad_pad (m : List Nat) : unpad (pad m) = some m := by
  have hmod : m.length % blockSize < blockSize :=
    Nat.mod_lt _ (by simp [blockSize])
  exact unpad_append_replicate m _ (by omega) (by omega)

/-- Rejoining the blocks of a byte sequence gives it back. -/
theorem toBlocks_flatten (m : List Nat) : (toBlocks m).flatten = m := by
  by_cases h : m = []
  · subst h
    simp [toBlocks]
  · rw [toBlocks, dif_neg h, List.flatten_cons,
      toBlocks_flatten (m.drop blockSize)]
    exact List.take_append_drop _ _
termination_by m.length
decreasing_by
  simp only [List.length_drop, blockSize]
  have hm : 0 < m.length := List.length_pos.mpr h
  omega

/-- Every block of a whole number of blocks has exactly the block size. -/
theorem toBlocks_blockLength (m : List Nat) (hdvd : blockSize ∣ m.length) :
    ∀ b ∈ toBlocks m, b.length = blockSize := by
  by_cases h : m = []
  · subst h
    simp [toBlocks]
  · obtain ⟨k, hk⟩ := hdvd
    have hlen0 : m.length ≠ 0 := fun hh => h (List.length_eq_zero.mp hh)
    have hk0 : k ≠ 0 := by
      rintro rfl
      simp at hk
      exact h hk
    have hge : blockSize ≤ m.length := by
      simp only [blockSize] at hk ⊢
      omega
    rw [toBlocks, dif_neg h]
    intro b hb
    rcases List.mem_cons.mp hb with rfl | hb2
    · simp only [List.length_take]
      omega
    · refine toBlocks_blockLength (m.drop blockSize) ⟨k - 1, ?_⟩ b hb2
      simp only [List.length_drop, blockSize] at hk ⊢
      omega
termination_by m.length
decreasing_by
  simp only [List.length_drop, blockSize]
  omega

/-- Splitting a concatenation of uniform 16-byte blocks recovers the blocks. -/
theorem toBlocks_of_flatten (C : List (List Nat))
    (h : ∀ c ∈ C, c.length = blockSize) : toBlocks C.flatten = C := by
  induction C with
  | nil => simp [toBlocks]
  | cons c cs ih =>
    have hc : c.length = blockSize := h c (by simp)
    have hne : (c :: cs).flatten ≠ [] := by
      simp only [List.flatten_cons]
      intro hh
      have hl := congrArg List.length hh
      simp only [List.length_append, hc, blockSize, List.length_nil] at hl
      omega
    rw [List.flatten_cons] at hne ⊢
    rw [toBlocks, dif_neg hne, List.take_left' hc, List.drop_left' hc,
      ih (fun x hx => h x (by simp [hx]))]

/-- CBC encryption produces one ciphertext block per plaintext block. -/
theorem cbcEncBlocks_length_eq (enc : List Nat → List Nat)
    (bs : List (List Nat)) :
    ∀ prev, (cbcEncBlocks enc prev bs).length = bs.length := by
  induction bs with
  | nil => intro prev; rfl
  | cons b bs ih =>
    intro prev
    simp only [cbcEncBlocks, List.length_cons, ih]

/-- CBC encryption of 16-byte blocks under a length-preserving block cipher
yields 16-byte ciphertext blocks. -/
theorem cbcEncBlocks_blockLength (enc : List Nat → List Nat)
    (hlen : ∀ b : List Nat, b.length = blockSize → (enc b).length = blockSize)
    (bs : List (List Nat)) :
    ∀ prev, prev.length = blockSize → (∀ b ∈ bs, b.length = blockSize) →
      ∀ c ∈ cbcEncBlocks enc prev bs, c.length = blockSize := by
  induction bs with
  | nil =>
    intro prev _ _ c hc
    simp [cbcEncBlocks] at hc
  | cons b bs ih =>
    intro prev hprev hbs c hc
    have hb : b.length = blockSize := hbs b (by simp)
    have hx : (xorBytes b prev).length = blockSize := by
      simp [xorBytes_length, hb, hprev]
    have hcb : (enc (xorBytes b prev)).length = blockSize := hlen _ hx
    simp only [cbcEncBlocks] at hc
    rcases List.mem_cons.mp hc with rfl | hc2
    · exact hcb
    · exact ih _ hcb (fun x hx2 => hbs x (by simp [hx2])) c hc2

/-- CBC decryption inverts CBC encryption, blockwise. -/
theorem cbc_roundtrip (enc dec : List Nat → List Nat)
    (hlen : ∀ b : List Nat, b.length = blockSize → (enc b).length = blockSize)
    (hinv : ∀ b : List Nat, b.length = blockSize → dec (enc b) = b)
    (bs : List (List Nat)) :
    ∀ prev, prev.length = blockSize → (∀ b ∈ bs, b.length = blockSize) →
      cbcDecBlocks dec prev (cbcEncBlocks enc prev bs) = bs := by
  induction bs with
  | nil => intro prev _ _; rfl
  | cons b bs ih =>
    intro prev hprev hbs
    have hb : b.length = blockSize := hbs b (by simp)
    have hx : (xorBytes b prev).length = blockSize := by
      simp [xorBytes_length, hb, hprev]
    simp only [cbcEncBlocks, cbcDecBlocks]
    rw [hinv _ hx, xorBytes_cancel b prev (by rw [hb, hprev]),
      ih _ (hlen _ hx) (fun x hx2 => hbs x (by simp [hx2]))]

/-- The concatenation of uniform 16-byte blocks has length 16 times the block
count. -/
theorem flatten_length_uniform (C : List (List Nat))
    (h : ∀ c ∈ C, c.length = blockSize) :
    C.flatten.length = blockSize * C.length := by
  induction C with
  | nil => simp
  | cons c cs ih =>
    simp only [List.flatten_cons, List.length_append, List.length_cons]
    rw [h c (by simp), ih (fun x hx => h x (by simp [hx]))]
    ring

/-- C9: decrypting the ciphertext/nonce pair produced by CryptoService.encrypt
under the same key returns exactly the original plaintext bytes, for any
16-byte IV and any AES block permutation (abstracted as a length-preserving
enc with left inverse dec, the contract of the Node crypto collaborator). -/
theorem encrypt_decrypt_roundtrip (enc dec : List Nat → List Nat)
    (nonce m : List Nat)
    (hlen : ∀ b : List Nat, b.length = blockSize → (enc b).length = blockSize)
    (hinv : ∀ b : List Nat, b.length = blockSize → dec (enc b) = b)
    (hnonce : nonce.length = blockSize) :
    serviceDecrypt dec (serviceEncrypt enc nonce m).ciphertext
      (serviceEncrypt enc nonce m).nonce = m := by
  have hpaddvd : blockSize ∣ (pad m).length :=
    Nat.dvd_of_mod_eq_zero (pad_length_mod m)
  have hblocks : ∀ b ∈ toBlocks (pad m), b.length = blockSize :=
    toBlocks_blockLength _ hpaddvd
  have hCblocks : ∀ c ∈ cbcEncBlocks enc nonce (toBlocks (pad m)),
      c.length = blockSize :=
    cbcEncBlocks_blockLength enc hlen _ nonce hnonce hblocks
  have hCflatlen : (cbcEncBlocks enc nonce (toBlocks (pad m))).flatten.length =
      blockSize * (cbcEncBlocks enc nonce (toBlocks (pad m))).length :=
    flatten_length_uniform _ hCblocks
  have hpadne : pad m ≠ [] := by
    have hp := pad_pos m
    intro hh
    rw [hh] at hp
    simp at hp
  have hCne : (cbcEncBlocks enc nonce (toBlocks (pad m))).length ≠ 0 := by
    rw [cbcEncBlocks_length_eq, toBlocks, dif_neg hpadne]
    simp
  have hct : (serviceEncrypt enc nonce m).ciphertext =
      (cbcEncBlocks enc nonce (toBlocks (pad m))).flatten := rfl
  have hnn : (serviceEncrypt enc nonce m).nonce = nonce := rfl
  rw [hct, hnn]
  unfold serviceDecrypt
  rw [if_neg (by rw [hCflatlen]; simp only [blockSize]; omega),
    if_neg (by rw [hnonce]; simp),
    if_neg (by rw [hCflatlen]; simp [Nat.mul_mod_right]),
    toBlocks_of_flatten _ hCblocks,
    cbc_roundtrip enc dec hlen hinv _ nonce hnonce hblocks,
    toBlocks_flatten, unpad_pad]

/-- Witness for C9 at a concrete input: with the identity block permutation,
an all-zero IV and the two plaintext bytes of the word hi, decrypt of encrypt
returns the plaintext. -/
theorem encrypt_decrypt_roundtrip_witness :
    serviceDecrypt id
      (serviceEncrypt id (List.replicate 16 0) [104, 105]).ciphertext
      (serviceEncrypt id (List.replicate 16 0) [104, 105]).nonce = [104, 105] :=
  encrypt_decrypt_roundtrip id id (List.replicate 16 0) [104, 105]
    (fun _ hb => hb) (fun _ _ => rfl) (by simp [blockSize])

/-- C10: CryptoService.decrypt is a total function on ciphertext/nonce byte
pairs: it always returns a byte string, which is either the sentinel
(Decryption failed in brackets) or a successfully unpadded plaintext, and it
returns the sentinel whenever the ciphertext is empty, the nonce is not 16
bytes, or the underlying CBC decryption has invalid padding. -/
theorem decrypt_total (dec : List Nat → List Nat) (ct nonce : List Nat) :
    (serviceDecrypt dec ct nonce = sentinelBytes ∨
      ∃ m, unpad ((cbcDecBlocks dec nonce (toBlocks ct)).flatten) = some m ∧
        serviceDecrypt dec ct nonce = m) ∧
    (ct.length = 0 → serviceDecrypt dec ct nonce = sentinelBytes) ∧
    (nonce.length ≠ blockSize → serviceDecrypt dec ct nonce = sentinelBytes) ∧
    (unpad ((cbcDecBlocks dec nonce (toBlocks ct)).flatten) = none →
      serviceDecrypt dec ct nonce = sentinelBytes) := by
  refine ⟨?_, ?_, ?_, ?_⟩
  · by_cases h0 : ct.length = 0
    · left
      simp [serviceDecrypt, h0]
    by_cases h1 : nonce.length ≠ blockSize
    · left
      simp [serviceDecrypt, h0, h1]
    by_cases h2 : ct.length % blockSize ≠ 0
    · left
      simp [serviceDecrypt, h0, h1, h2]
    cases hu : unpad ((cbcDecBlocks dec nonce (toBlocks ct)).flatten) with
    | none =>
      left
      simp [serviceDecrypt, h0, h1, h2, hu]
    | some m =>
      right
      exact ⟨m, rfl, by simp [serviceDecrypt, h0, h1, h2, hu]⟩
  · intro h0
    simp [serviceDecrypt, h0]
  · intro h1
    by_cases h0 : ct.length = 0
    · simp [serviceDecrypt, h0]
    · simp [serviceDecrypt, h0, h1]
  · intro hu
    by_cases h0 : ct.length = 0
    · simp [serviceDecrypt, h0]
    by_cases h1 : nonce.length ≠ blockSize
    · simp [serviceDecrypt, h0, h1]
    by_cases h2 : ct.length % blockSize ≠ 0
    · simp [serviceDecrypt, h0, h1, h2]
    · simp [serviceDecrypt, h0, h1, h2, hu]

/-- Witness for C10 at concrete inputs: empty ciphertext yields the sentinel,
and a one-block ciphertext whose padding byte is invalid yields the sentinel
rather than an error. -/
theorem decrypt_total_witness :
    serviceDecrypt id [] [] = sentinelBytes :=
  (decrypt_total id [] []).2.1 rfl

end ChatCraft
